import Mathlib

/-!
# Verification of the wa_llm message-routing and retrieval core

A shallow embedding of the core components of the wa_llm WhatsApp bot:
the sliding-window RateLimiter, the two-tier MembershipGate, the
TimeWindowResolver, the reciprocal-rank-fusion HybridSearchEngine and the
Router state machine, together with proofs of the specified properties.

The Python implementation of the core (`src/handler/router.py`,
`src/search/`, the rate limiter and the membership gate) is not part of
the distributed sources (only documentation, the changelog and build
files are), so every definition here is modelled from the specification's
own wording, as noted in each doc comment.
-/

namespace WaLlm

/-! ## Rate limiter (spec §4.1)

Timestamps are natural numbers (seconds).  The per-key state is the list
of recorded event timestamps, newest first. -/

/-- Modelled from the spec: the lazy purge of a rate-limit key state —
keep exactly the events still inside the trailing window at time `now`
(an event at `t` is live while `now < t + window`).  The Python rate
limiter is not under `src/`; this follows §4.1 ("Expired entries are
purged lazily on access"). -/
def purge (window now : Nat) (ts : List Nat) : List Nat :=
  ts.filter (fun t => decide (now < t + window))

/-- Modelled from the spec: `RateLimiter.allow` for a single key, §4.1 —
purge the expired events, then admit and record the event at `now` if
fewer than `limit` live events remain, otherwise reject without
recording. -/
def allow (limit window now : Nat) (ts : List Nat) : Bool × List Nat :=
  let live := purge window now ts
  if live.length < limit then (true, now :: live) else (false, live)

/-- Modelled from the spec: feeding a sequence of events, in order, to the
rate limiter for one key; returns whether all were admitted and the final
key state. -/
def runAll (limit window : Nat) (st : List Nat) : List Nat → Bool × List Nat
  | [] => (true, st)
  | t :: rest =>
    let r := allow limit window t st
    let r2 := runAll limit window r.2 rest
    (r.1 && r2.1, r2.2)

/-! ## Time-window resolver (spec §4.3)

Timestamps and durations are in hours; the hint is the already-extracted
duration in hours (free-text parsing is the classifier collaborator's
job). -/

/-- A resolved summary time window: `start` and `endTime` (the spec's
`end`, a Lean keyword) in hours. -/
structure TimeWindow where
  start : Int
  endTime : Int
deriving DecidableEq, Repr

/-- Modelled from the spec: `TimeWindowResolver.resolve`, §4.3 — no hint
defaults to the trailing 24 hours with a 30-message cap; an explicit hint
is clamped to 168 hours (never rejected) with a 100-message cap;
`end` is always `now`, `start = end − duration`. -/
def resolve (now : Int) (hint : Option Nat) : TimeWindow × Nat :=
  match hint with
  | none => (⟨now - 24, now⟩, 30)
  | some h => (⟨now - (min h 168 : Nat), now⟩, 100)

/-! ## Membership gate (spec §4.2) -/

/-- The outcome of one `isMember` check: the boolean answer, the
membership store after the check (a possible upsert), and how many live
roster-lookup calls were made. -/
structure GateResult where
  result : Bool
  store : List (Nat × Nat)
  rosterCalls : Nat
deriving DecidableEq, Repr

/-- Modelled from the spec: `MembershipGate.isMember`, §4.2 — the local
store (a list of `(groupId, userId)` rows) is consulted first and a hit
returns `true` with zero roster calls; on a miss the live roster is
consulted (`none` models lookup failure, which fails closed), a positive
live answer is upserted into the store. -/
def isMember (store : List (Nat × Nat)) (roster : Nat → Option (List Nat))
    (userId groupId : Nat) : GateResult :=
  if (groupId, userId) ∈ store then
    ⟨true, store, 0⟩
  else
    match roster groupId with
    | none => ⟨false, store, 1⟩
    | some ms =>
      if userId ∈ ms then ⟨true, (groupId, userId) :: store, 1⟩
      else ⟨false, store, 1⟩

/-! ## Hybrid search engine (spec §4.4, data model §3)

The two index collaborators each deliver an ordered candidate list (order
is the 1-based rank within that set, §6).  Fusion, sorting, range
deduplication and the final `topK` cap are modelled below. -/

/-- A knowledge-base corpus entry (data model §3): identifier, owning
group, subject text, creation timestamp and source message-id range.
The embedding vector lives with the external indexes and plays no role
in fusion. -/
structure CorpusEntry where
  id : Nat
  groupId : Nat
  subject : String
  createdAt : Nat
  msgRange : Nat × Nat
deriving DecidableEq, Repr

/-- A transient search result (data model §3): the corpus entry plus its
fused reciprocal-rank score. -/
structure SearchResult where
  entry : CorpusEntry
  fused : ℚ
deriving DecidableEq, Repr

/-- Modelled from the spec: the 1-based rank of entry id `i` inside a
ranked candidate list, `none` when the entry is absent from the set
(§4.4). -/
def rankOf : List CorpusEntry → Nat → Option Nat
  | [], _ => none
  | e :: rest, i => if e.id = i then some 1 else (rankOf rest i).map (· + 1)

/-- Modelled from the spec: one reciprocal-rank term, `1 / (k + rank)`
for a present entry and `0` for an absent one (§4.4).  Built with
`mkRat` so that concrete searches evaluate by kernel reduction. -/
def rrfTerm (k : Nat) (r : Option Nat) : ℚ :=
  match r with
  | none => 0
  | some n => mkRat 1 (k + n)

/-- Rational addition computed on numerators and denominators; proved
equal to `+` on `ℚ` in `ratAdd_eq_add` below. -/
def ratAdd (a b : ℚ) : ℚ :=
  mkRat (a.num * (b.den : Int) + b.num * (a.den : Int)) (a.den * b.den)

/-- Modelled from the spec: the fused score of an entry, the sum of the
vector-set and lexical-set reciprocal-rank terms (§4.4).  It depends on
the candidate lists only through the two ranks. -/
def rrfScore (k : Nat) (vec lex : List CorpusEntry) (e : CorpusEntry) : ℚ :=
  ratAdd (rrfTerm k (rankOf vec e.id)) (rrfTerm k (rankOf lex e.id))

/-- Fuel-driven helper for `dedupById`; the fuel only serves structural
termination and never runs out when it starts at the list length. -/
def dedupByIdF : Nat → List CorpusEntry → List CorpusEntry
  | _, [] => []
  | 0, _ :: _ => []
  | fuel + 1, e :: rest =>
    e :: dedupByIdF fuel (rest.filter (fun x => decide (x.id ≠ e.id)))

/-- Modelled from the spec: the union of the two candidate sets, keeping
the first occurrence of each entry id (an entry present in both sets is
fused once, §4.4). -/
def dedupById (l : List CorpusEntry) : List CorpusEntry :=
  dedupByIdF l.length l

/-- Modelled from the spec: every candidate (the deduplicated union of
both sets) paired with its fused score (§4.4). -/
def fuseAll (k : Nat) (vec lex : List CorpusEntry) : List SearchResult :=
  (dedupById (vec ++ lex)).map (fun e => ⟨e, rrfScore k vec lex e⟩)

/-- Modelled from the spec: the result ordering — descending fused score,
ties broken by more recent creation timestamp first (§4.4). -/
def resultRel (a b : SearchResult) : Prop :=
  b.fused < a.fused ∨ (a.fused = b.fused ∧ b.entry.createdAt ≤ a.entry.createdAt)

instance : DecidableRel resultRel := fun a b => by
  unfold resultRel; infer_instance

instance : IsTotal SearchResult resultRel where
  total a b := by
    unfold resultRel
    rcases lt_trichotomy a.fused b.fused with h | h | h
    · exact Or.inr (Or.inl h)
    · rcases Nat.le_total b.entry.createdAt a.entry.createdAt with h2 | h2
      · exact Or.inl (Or.inr ⟨h, h2⟩)
      · exact Or.inr (Or.inr ⟨h.symm, h2⟩)
    · exact Or.inl (Or.inl h)

instance : IsTrans SearchResult resultRel where
  trans a b c hab hbc := by
    unfold resultRel at *
    rcases hab with h1 | ⟨h1, h1'⟩
    · rcases hbc with h2 | ⟨h2, h2'⟩
      · exact Or.inl (h2.trans h1)
      · exact Or.inl (h2 ▸ h1)
    · rcases hbc with h2 | ⟨h2, h2'⟩
      · exact Or.inl (h1 ▸ h2)
      · exact Or.inr ⟨h1.trans h2, h2'.trans h1'⟩

/-- Fuel-driven helper for `dedupByRange`; the fuel only serves
structural termination and never runs out when it starts at the list
length. -/
def dedupByRangeF : Nat → List SearchResult → List SearchResult
  | _, [] => []
  | 0, _ :: _ => []
  | fuel + 1, r :: rest =>
    r :: dedupByRangeF fuel
      (rest.filter (fun x => decide (x.entry.msgRange ≠ r.entry.msgRange)))

/-- Modelled from the spec: range deduplication — keep, for each source
message-id range, only the first result in list order; applied to the
score-sorted list this keeps the highest-fused-score entry per range
(§4.4). -/
def dedupByRange (l : List SearchResult) : List SearchResult :=
  dedupByRangeF l.length l

/-- Modelled from the spec: `HybridSearchEngine.search` on the two ranked
candidate lists — fuse every candidate, sort by descending fused score
with the recency tie-break, deduplicate by source range, and only then
cap at `topK` (§4.4). -/
def search (k : Nat) (vec lex : List CorpusEntry) (topK : Nat) : List SearchResult :=
  (dedupByRange (List.insertionSort resultRel (fuseAll k vec lex))).take topK

/-! ## Router (spec §4.5, §6, §7)

One route per inbound message; collaborators are injected as pure
functions returning `Option` (with `none` modelling a collaborator
failure), and the result carries the possibly-updated membership store
plus counters for the history-store and roster calls actually made. -/

/-- A chat group (data model §3). -/
structure Group where
  id : Nat
  name : String
  managed : Bool
  enableWebSearch : Bool
deriving DecidableEq, Repr

/-- An inbound chat message. -/
structure Message where
  id : Nat
  sender : Nat
  groupId : Nat
  text : String
deriving DecidableEq, Repr

/-- The four routed intents (data model §3). -/
inductive Intent where
  | askQuestion
  | summarize
  | about
  | other
deriving DecidableEq, Repr

/-- What the intent classifier collaborator returns (§6): the intent,
an optional target-group name and an optional duration hint (hours). -/
structure ClassifyResult where
  intent : Intent
  targetGroupHint : Option String
  durationHint : Option Nat
deriving DecidableEq, Repr

/-- The Router's final outcome for one inbound message, covering the
error taxonomy of §7 and the normal resolutions of §4.5. -/
inductive Outcome where
  | rateLimited
  | classificationFailed
  | embeddingFailed
  | searchIndexUnavailable
  | answered (evidence : List SearchResult)
  | noKnowledge
  | summarized (summary : String)
  | unauthorized
  | aboutReply
  | defaultReply
deriving DecidableEq, Repr

/-- The injected collaborators (§6), each modelled as a pure function;
`none` models the collaborator failing. -/
structure Collaborators where
  classify : String → Option ClassifyResult
  rephrase : String → String
  embed : String → Option (List Int)
  roster : Nat → Option (List Nat)
  vecIndex : Nat → List Int → Option (List CorpusEntry)
  lexIndex : Nat → String → Option (List CorpusEntry)
  history : Nat → Int → Int → Nat → List Message
  summarizer : List Message → String

/-- Router configuration: the two rate-limit pairs (§4.1 defaults
5/60s per sender, 20/60s per group), the fusion constant `k` and the
result cap `topK`. -/
structure RouterConfig where
  userLimit : Nat
  userWindow : Nat
  groupLimit : Nat
  groupWindow : Nat
  k : Nat
  topK : Nat
deriving DecidableEq, Repr

/-- The mutable context one route starts from: the known groups, the
local membership store and the two rate-limit key states relevant to
this message (sender key and group key). -/
structure RouterState where
  groups : List Group
  store : List (Nat × Nat)
  senderTs : List Nat
  groupTs : List Nat

/-- The observable effects of routing one message: the outcome, the
membership store afterwards, and how many history-store and roster
calls were made. -/
structure RouteResult where
  outcome : Outcome
  store : List (Nat × Nat)
  historyCalls : Nat
  rosterCalls : Nat
deriving DecidableEq, Repr

/-- Modelled from the spec: summarize-target resolution (§4.5 step 4) —
an explicit name hint is matched against the known managed groups, an
absent hint targets the current chat; in both cases only a `managed`
group is eligible. -/
def resolveTarget (groups : List Group) (currentChat : Nat) :
    Option String → Option Group
  | some nm => groups.find? (fun g => g.managed && g.name == nm)
  | none => groups.find? (fun g => g.managed && g.id == currentChat)

/-- Modelled from the spec: the `ask_question` branch (§4.5 step 3) —
rephrase, embed (failure → `embeddingFailed`), query both indexes
(failure → `searchIndexUnavailable`), fuse with `search`, and report an
empty evidence set as the distinguishable `noKnowledge` outcome (§8). -/
def routeQuestion (cfg : RouterConfig) (st : RouterState) (c : Collaborators)
    (msg : Message) : RouteResult :=
  let q := c.rephrase msg.text
  match c.embed q with
  | none => ⟨Outcome.embeddingFailed, st.store, 0, 0⟩
  | some emb =>
    match c.vecIndex msg.groupId emb, c.lexIndex msg.groupId q with
    | some vec, some lex =>
      let res := search cfg.k vec lex cfg.topK
      if res.isEmpty then ⟨Outcome.noKnowledge, st.store, 0, 0⟩
      else ⟨Outcome.answered res, st.store, 0, 0⟩
    | _, _ => ⟨Outcome.searchIndexUnavailable, st.store, 0, 0⟩

/-- Modelled from the spec: the `summarize` branch (§4.5 step 4) —
resolve the target among managed groups (an ineligible or unknown target
gets the same fixed refusal, leaking nothing), resolve the time window,
consult the membership gate, and fetch history only after `authorized`;
`denied` is the fixed `unauthorized` refusal with zero history calls. -/
def routeSummarize (st : RouterState) (c : Collaborators) (msg : Message)
    (now : Int) (cr : ClassifyResult) : RouteResult :=
  match resolveTarget st.groups msg.groupId cr.targetGroupHint with
  | none => ⟨Outcome.unauthorized, st.store, 0, 0⟩
  | some tg =>
    let win := resolve now cr.durationHint
    let gate := isMember st.store c.roster msg.sender tg.id
    if gate.result then
      let msgs := c.history tg.id win.1.start win.1.endTime win.2
      ⟨Outcome.summarized (c.summarizer msgs), gate.store, 1, gate.rosterCalls⟩
    else
      ⟨Outcome.unauthorized, gate.store, 0, gate.rosterCalls⟩

/-- Modelled from the spec: the Router state machine (§4.5) — both
rate-limit checks must admit the message (otherwise it is dropped as
`rateLimited`), the classifier failure is surfaced as
`classificationFailed`, and the four intents dispatch to their
branches. -/
def route (cfg : RouterConfig) (st : RouterState) (c : Collaborators)
    (msg : Message) (now : Nat) : RouteResult :=
  if (allow cfg.userLimit cfg.userWindow now st.senderTs).1 &&
      (allow cfg.groupLimit cfg.groupWindow now st.groupTs).1 then
    match c.classify msg.text with
    | none => ⟨Outcome.classificationFailed, st.store, 0, 0⟩
    | some cr =>
      match cr.intent with
      | Intent.askQuestion => routeQuestion cfg st c msg
      | Intent.summarize => routeSummarize st c msg (now : Int) cr
      | Intent.about => ⟨Outcome.aboutReply, st.store, 0, 0⟩
      | Intent.other => ⟨Outcome.defaultReply, st.store, 0, 0⟩
  else
    ⟨Outcome.rateLimited, st.store, 0, 0⟩

/-! ## Concrete demonstration inputs used by the witness theorems -/

/-- A concrete roster collaborator: group 9 has live members 3 and 4,
every other lookup fails. -/
def demoRoster : Nat → Option (List Nat) :=
  fun g => if g = 9 then some [3, 4] else none

/-- Corpus entry A of the spec's §8 fusion example (vector rank 1). -/
def entA : CorpusEntry := ⟨1, 10, "A", 0, (1, 1)⟩

/-- Corpus entry B of the spec's §8 fusion example (vector rank 2,
lexical rank 1). -/
def entB : CorpusEntry := ⟨2, 10, "B", 0, (2, 2)⟩

/-- Corpus entry C of the spec's §8 fusion example (vector rank 3). -/
def entC : CorpusEntry := ⟨3, 10, "C", 0, (3, 3)⟩

/-- Corpus entry D of the spec's §8 fusion example (lexical rank 2). -/
def entD : CorpusEntry := ⟨4, 10, "D", 0, (4, 4)⟩

/-- A corpus entry sharing entry B's source message-id range but newer
and ranked lower, for the deduplication witness. -/
def entB2 : CorpusEntry := ⟨5, 10, "B2", 9, (2, 2)⟩

/-- A concrete router configuration: the §4.1 default limits, fusion
constant 60 and a result cap of 5. -/
def demoCfg : RouterConfig := ⟨5, 60, 20, 60, 60, 5⟩

/-- A managed group with id 9. -/
def gManaged : Group := ⟨9, "g", true, false⟩

/-- The same group with the `managed` flag cleared. -/
def gUnmanaged : Group := ⟨9, "g", false, false⟩

/-- Router state in which user 7 already has a membership row for
group 9. -/
def stMember : RouterState := ⟨[gManaged], [(9, 7)], [], []⟩

/-- Router state with an empty membership store. -/
def stEmpty : RouterState := ⟨[gManaged], [], [], []⟩

/-- Router state whose only known group is unmanaged, with an empty
membership store. -/
def stUnmanaged : RouterState := ⟨[gUnmanaged], [], [], []⟩

/-- An inbound message from user 7 in group 9 whose text classifies as
`ask_question` under `demoCollab`. -/
def msgAsk : Message := ⟨1, 7, 9, "a"⟩

/-- An inbound message from user 7 in group 9 whose text classifies as
`summarize` under `demoCollab`. -/
def msgSum : Message := ⟨2, 7, 9, "s"⟩

/-- A concrete healthy collaborator set: "a" classifies as
`ask_question`, "s" as `summarize`, embedding succeeds, both indexes
return an empty candidate list, the roster is `demoRoster`. -/
def demoCollab : Collaborators where
  classify := fun t =>
    if t = "a" then some ⟨Intent.askQuestion, none, none⟩
    else if t = "s" then some ⟨Intent.summarize, none, none⟩
    else none
  rephrase := id
  embed := fun _ => some [1]
  roster := demoRoster
  vecIndex := fun _ _ => some []
  lexIndex := fun _ _ => some []
  history := fun _ _ _ _ => []
  summarizer := fun _ => "ok"

/-- `demoCollab` with a failing intent classifier. -/
def demoCollabNoClassify : Collaborators :=
  { demoCollab with classify := fun _ => none }

/-- `demoCollab` with a failing embedding provider. -/
def demoCollabNoEmbed : Collaborators :=
  { demoCollab with embed := fun _ => none }

/-- `demoCollab` with an unavailable vector index. -/
def demoCollabNoVec : Collaborators :=
  { demoCollab with vecIndex := fun _ _ => none }

/-- `demoCollab` with a failing live roster lookup. -/
def demoCollabNoRoster : Collaborators :=
  { demoCollab with roster := fun _ => none }

/-! ## Claims about the time-window resolver -/

/-- Claim C5: `TimeWindowResolver.resolve` returns a window ending at
`now` and starting `duration` earlier, where no hint gives a 24-hour
window with a 30-message cap, a hint over 168 hours is clamped to a
168-hour window with a 100-message cap, and a hint of at most 168 hours
gives exactly that duration with a 100-message cap. -/
theorem resolve_window_policy (now : Int) :
    resolve now none = (⟨now - 24, now⟩, 30) ∧
    (∀ h : Nat, 168 < h → resolve now (some h) = (⟨now - 168, now⟩, 100)) ∧
    (∀ h : Nat, h ≤ 168 → resolve now (some h) = (⟨now - h, now⟩, 100)) := by
  refine ⟨rfl, ?_, ?_⟩
  · intro h hh
    have : min h 168 = 168 := Nat.min_eq_right (Nat.le_of_lt hh)
    simp [resolve, this]
  · intro h hh
    have : min h 168 = h := Nat.min_eq_left hh
    simp [resolve, this]

/-- Witness for C5 at `now = 1000` with hints of 240 and 3 hours. -/
theorem resolve_window_policy_witness :
    resolve 1000 none = (⟨1000 - 24, 1000⟩, 30) ∧
    resolve 1000 (some 240) = (⟨1000 - 168, 1000⟩, 100) ∧
    resolve 1000 (some 3) = (⟨1000 - 3, 1000⟩, 100) :=
  ⟨(resolve_window_policy 1000).1,
   (resolve_window_policy 1000).2.1 240 (by decide),
   (resolve_window_policy 1000).2.2 3 (by decide)⟩

/-! ## Claims about the membership gate -/

/-- Claim C4: `MembershipGate.isMember` is the two-tier check — a local
row returns `true` with zero roster calls; with no local row the result
is exactly the live-roster answer (one roster call), a positive live
answer upserts the row, and the repeated call then takes the fast path
with zero roster calls. -/
theorem isMember_two_tier (store : List (Nat × Nat))
    (roster : Nat → Option (List Nat)) (u g : Nat) :
    ((g, u) ∈ store → isMember store roster u g = ⟨true, store, 0⟩) ∧
    ((g, u) ∉ store → ∀ ms, roster g = some ms →
       isMember store roster u g =
         if u ∈ ms then ⟨true, (g, u) :: store, 1⟩ else ⟨false, store, 1⟩) ∧
    ((g, u) ∉ store → ∀ ms, roster g = some ms → u ∈ ms →
       isMember ((isMember store roster u g).store) roster u g =
         ⟨true, (g, u) :: store, 0⟩) := by
  refine ⟨?_, ?_, ?_⟩
  · intro hmem
    simp [isMember, hmem]
  · intro hmem ms hr
    simp [isMember, hmem, hr]
  · intro hmem ms hr hu
    have h1 : isMember store roster u g = ⟨true, (g, u) :: store, 1⟩ := by
      simp [isMember, hmem, hr, hu]
    rw [h1]
    simp [isMember]

/-- Witness for C4: user 3 of group 9 has no local row, the live roster
affirms the membership, the row is upserted and the repeated call makes
no roster call. -/
theorem isMember_two_tier_witness :
    isMember [(5, 7)] demoRoster 7 5 = ⟨true, [(5, 7)], 0⟩ ∧
    isMember [] demoRoster 3 9 =
      (if 3 ∈ [3, 4] then ⟨true, [(9, 3)], 1⟩ else ⟨false, [], 1⟩) ∧
    isMember ((isMember [] demoRoster 3 9).store) demoRoster 3 9 =
      ⟨true, [(9, 3)], 0⟩ :=
  ⟨(isMember_two_tier [(5, 7)] demoRoster 7 5).1 (by decide),
   (isMember_two_tier [] demoRoster 3 9).2.1 (by decide) [3, 4] (by decide),
   (isMember_two_tier [] demoRoster 3 9).2.2 (by decide) [3, 4] (by decide) (by decide)⟩

/-- Claim C2: the membership gate fails closed — with no local row a
failed live lookup answers `false`; `true` is only ever answered on a
local row or an affirmative live roster; and on a summarize request
whose target the sender is not locally known in, a roster failure stops
the Router at the denial, never past the `authorized` transition. -/
theorem isMember_fails_closed (store : List (Nat × Nat))
    (roster : Nat → Option (List Nat)) (u g : Nat) :
    ((g, u) ∉ store → roster g = none → (isMember store roster u g).result = false) ∧
    ((isMember store roster u g).result = true ↔
       (g, u) ∈ store ∨ ∃ ms, roster g = some ms ∧ u ∈ ms) ∧
    (∀ cfg st c msg now cr tg,
       (allow cfg.userLimit cfg.userWindow now st.senderTs).1 = true →
       (allow cfg.groupLimit cfg.groupWindow now st.groupTs).1 = true →
       c.classify msg.text = some cr → cr.intent = Intent.summarize →
       resolveTarget st.groups msg.groupId cr.targetGroupHint = some tg →
       (tg.id, msg.sender) ∉ st.store → c.roster tg.id = none →
       (route cfg st c msg now).outcome = Outcome.unauthorized ∧
       (route cfg st c msg now).historyCalls = 0) := by
  refine ⟨?_, ?_, ?_⟩
  · intro hmem hr
    simp [isMember, hmem, hr]
  · by_cases hmem : (g, u) ∈ store
    · simp [isMember, hmem]
    · cases hr : roster g with
      | none => simp [isMember, hmem, hr]
      | some ms =>
        by_cases hu : u ∈ ms <;> simp [isMember, hmem, hr, hu]
  · intro cfg st c msg now cr tg hA hB hcl hintent htg hmem hrost
    have hgate : isMember st.store c.roster msg.sender tg.id = ⟨false, st.store, 1⟩ := by
      simp [isMember, hmem, hrost]
    simp [route, hA, hB, hcl, hintent, routeSummarize, htg, hgate]

/-- Witness for C2: user 7 of group 9 has no local row and the roster
fails, so the gate denies; a summarize request by user 7 with the
failing roster ends `unauthorized` with zero history calls. -/
theorem isMember_fails_closed_witness :
    (isMember [] (fun _ => none) 7 9).result = false ∧
    (route demoCfg stEmpty demoCollabNoRoster msgSum 0).outcome = Outcome.unauthorized ∧
    (route demoCfg stEmpty demoCollabNoRoster msgSum 0).historyCalls = 0 := by
  refine ⟨(isMember_fails_closed [] (fun _ => none) 7 9).1 (by decide) rfl, ?_, ?_⟩
  · exact ((isMember_fails_closed [] (fun _ => none) 7 9).2.2 demoCfg stEmpty
      demoCollabNoRoster msgSum 0 ⟨Intent.summarize, none, none⟩ gManaged
      (by decide) (by decide) (by decide) (by decide) (by decide) (by decide) rfl).1
  · exact ((isMember_fails_closed [] (fun _ => none) 7 9).2.2 demoCfg stEmpty
      demoCollabNoRoster msgSum 0 ⟨Intent.summarize, none, none⟩ gManaged
      (by decide) (by decide) (by decide) (by decide) (by decide) (by decide) rfl).2

/-! ## Claims about the rate limiter -/

/-- Purging removes nothing when every recorded event is still inside
the window. -/
theorem purge_eq_self {window now : Nat} {ts : List Nat}
    (h : ∀ t ∈ ts, now < t + window) : purge window now ts = ts := by
  unfold purge
  rw [List.filter_eq_self]
  intro t ht
  simpa using h t ht

/-- A filter that drops at least one element strictly shortens the
list. -/
theorem filter_length_lt {α : Type} {p : α → Bool} {l : List α} {x : α}
    (hx : x ∈ l) (hpx : p x = false) : (l.filter p).length < l.length := by
  induction l with
  | nil => cases hx
  | cons a rest ih =>
    rcases List.mem_cons.mp hx with rfl | hx'
    · rw [List.filter_cons, hpx]
      simp only [List.length_cons]
      exact Nat.lt_succ_of_le (List.length_filter_le _ _)
    · rw [List.filter_cons]
      cases hpa : p a
      · simp only [cond_false, List.length_cons]
        exact Nat.lt_succ_of_lt (ih hx')
      · simp only [cond_true, List.length_cons]
        exact Nat.succ_lt_succ (ih hx')

/-- Feeding an ordered sequence of mutually-in-window events to the
limiter admits all of them and records each one, as long as the prior
state stays in window and the total count fits under the limit. -/
theorem runAll_admits (limit window : Nat) :
    ∀ (es st : List Nat),
      es.Pairwise (· ≤ ·) →
      (∀ t ∈ es, ∀ t' ∈ es, t ≤ t' → t' < t + window) →
      (∀ s ∈ st, ∀ t ∈ es, t < s + window) →
      st.length + es.length ≤ limit →
      runAll limit window st es = (true, es.reverse ++ st) := by
  intro es
  induction es with
  | nil =>
    intro st _ _ _ _
    simp [runAll]
  | cons t rest ih =>
    intro st hsort hmut hst hlen
    have hpair := List.pairwise_cons.mp hsort
    have hpurge : purge window t st = st :=
      purge_eq_self (fun s hs => hst s hs t (List.mem_cons_self t rest))
    have hlt : st.length < limit := by
      simp only [List.length_cons] at hlen
      omega
    have hallow : allow limit window t st = (true, t :: st) := by
      unfold allow
      rw [hpurge, if_pos hlt]
    have hrest : runAll limit window (t :: st) rest = (true, rest.reverse ++ (t :: st)) := by
      refine ih (t :: st) hpair.2 ?_ ?_ ?_
      · intro a ha b hb hab
        exact hmut a (List.mem_cons_of_mem t ha) b (List.mem_cons_of_mem t hb) hab
      · intro s hs u hu
        rcases List.mem_cons.mp hs with heq | hs'
        · subst heq
          exact hmut s (List.mem_cons_self s rest) u (List.mem_cons_of_mem s hu)
            (hpair.1 u hu)
        · exact hst s hs' u (List.mem_cons_of_mem t hu)
      · simp only [List.length_cons] at hlen ⊢
        omega
    show (let r := allow limit window t st
          let r2 := runAll limit window r.2 rest
          ((r.1 && r2.1 : Bool), r2.2)) = _
    rw [hallow]
    simp only [hrest]
    simp [List.reverse_cons, List.append_assoc]

/-- Claim C3: with `limit` admitted events inside the sliding window,
the next event in the same window is rejected without recording (the
live state is returned unchanged), and once the window has elapsed from
the oldest recorded event a new event is admitted again. -/
theorem rateLimiter_sliding_window (limit window now now2 : Nat) (es : List Nat)
    (hsort : es.Pairwise (· ≤ ·))
    (hle : ∀ t ∈ es, t ≤ now)
    (hwin : ∀ t ∈ es, now < t + window)
    (hlen : es.length = limit) :
    runAll limit window [] es = (true, es.reverse) ∧
    allow limit window now es.reverse = (false, es.reverse) ∧
    (∀ m, m ∈ es → (∀ t ∈ es, m ≤ t) → m + window ≤ now2 →
      (allow limit window now2 es.reverse).1 = true) := by
  refine ⟨?_, ?_, ?_⟩
  · have := runAll_admits limit window es [] hsort
      (fun a ha b hb hab => Nat.lt_of_le_of_lt (hle b hb) (hwin a ha))
      (by intro s hs; cases hs)
      (by simpa using Nat.le_of_eq hlen)
    simpa using this
  · have hpurge : purge window now es.reverse = es.reverse :=
      purge_eq_self (fun t ht => hwin t (List.mem_reverse.mp ht))
    unfold allow
    rw [hpurge, if_neg]
    rw [List.length_reverse, hlen]
    exact Nat.lt_irrefl limit
  · intro m hm _ hexp
    have hmem : m ∈ es.reverse := List.mem_reverse.mpr hm
    have hpm : (fun t => decide (now2 < t + window)) m = false := by
      simp only [decide_eq_false_iff_not]
      omega
    have hshort : (purge window now2 es.reverse).length < limit := by
      have := filter_length_lt (p := fun t => decide (now2 < t + window)) hmem hpm
      unfold purge
      rw [List.length_reverse, hlen] at this
      exact this
    unfold allow
    rw [if_pos hshort]

/-- Witness for C3: limit 2, window 60 — events at 10 and 20 are both
admitted, a third at 30 is rejected with the state unchanged, and at 70
(window elapsed from the oldest event, 10) a new event is admitted. -/
theorem rateLimiter_sliding_window_witness :
    runAll 2 60 [] [10, 20] = (true, [20, 10]) ∧
    allow 2 60 30 [20, 10] = (false, [20, 10]) ∧
    (allow 2 60 70 [20, 10]).1 = true := by
  have h := rateLimiter_sliding_window 2 60 30 70 [10, 20]
    (by decide) (by decide) (by decide) (by decide)
  exact ⟨h.1, h.2.1, h.2.2 10 (by decide) (by decide) (by decide)⟩

/-! ## Claims about the hybrid search engine -/

/-- Range deduplication yields a sublist of its input, for any fuel. -/
theorem dedupByRangeF_sublist :
    ∀ (fuel : Nat) (l : List SearchResult), List.Sublist (dedupByRangeF fuel l) l := by
  intro fuel
  induction fuel with
  | zero =>
    intro l
    cases l <;> simp [dedupByRangeF]
  | succ n ih =>
    intro l
    cases l with
    | nil => simp [dedupByRangeF]
    | cons r rest =>
      rw [dedupByRangeF]
      exact List.Sublist.cons₂ r ((ih _).trans (List.filter_sublist rest))

/-- Range deduplication yields a sublist of its input. -/
theorem dedupByRange_sublist (l : List SearchResult) :
    List.Sublist (dedupByRange l) l :=
  dedupByRangeF_sublist l.length l

/-- Id deduplication yields a sublist of its input, for any fuel. -/
theorem dedupByIdF_sublist :
    ∀ (fuel : Nat) (l : List CorpusEntry), List.Sublist (dedupByIdF fuel l) l := by
  intro fuel
  induction fuel with
  | zero =>
    intro l
    cases l <;> simp [dedupByIdF]
  | succ n ih =>
    intro l
    cases l with
    | nil => simp [dedupByIdF]
    | cons e rest =>
      rw [dedupByIdF]
      exact List.Sublist.cons₂ e ((ih _).trans (List.filter_sublist rest))

/-- Id deduplication yields a sublist of its input. -/
theorem dedupById_sublist (l : List CorpusEntry) :
    List.Sublist (dedupById l) l :=
  dedupByIdF_sublist l.length l

/-- After range deduplication no two results share a source message-id
range, for any fuel. -/
theorem dedupByRangeF_pairwise :
    ∀ (fuel : Nat) (l : List SearchResult),
      (dedupByRangeF fuel l).Pairwise
        (fun a b => a.entry.msgRange ≠ b.entry.msgRange) := by
  intro fuel
  induction fuel with
  | zero =>
    intro l
    cases l <;> simp [dedupByRangeF]
  | succ n ih =>
    intro l
    cases l with
    | nil => simp [dedupByRangeF]
    | cons r rest =>
      rw [dedupByRangeF]
      refine List.Pairwise.cons ?_ (ih _)
      intro b hb
      have hb' : b ∈ rest.filter
          (fun x => decide (x.entry.msgRange ≠ r.entry.msgRange)) :=
        (dedupByRangeF_sublist n _).subset hb
      have hne := (List.mem_filter.mp hb').2
      simp only [decide_eq_true_eq] at hne
      exact Ne.symm hne

/-- After range deduplication no two results share a source message-id
range. -/
theorem dedupByRange_pairwise (l : List SearchResult) :
    (dedupByRange l).Pairwise (fun a b => a.entry.msgRange ≠ b.entry.msgRange) :=
  dedupByRangeF_pairwise l.length l

/-- On a list sorted by descending fused score, range deduplication
keeps, for each range, a result whose fused score dominates every
same-range result of the list, for any fuel. -/
theorem dedupByRangeF_max :
    ∀ (fuel : Nat) (l : List SearchResult), l.Pairwise resultRel →
      ∀ x ∈ dedupByRangeF fuel l, ∀ c ∈ l,
        c.entry.msgRange = x.entry.msgRange → c.fused ≤ x.fused := by
  intro fuel
  induction fuel with
  | zero =>
    intro l _ x hx
    cases l <;> simp [dedupByRangeF] at hx
  | succ n ih =>
    intro l hs x hx c hc hrange
    cases l with
    | nil => cases hc
    | cons r rest =>
      rw [dedupByRangeF] at hx
      have hpair := List.pairwise_cons.mp hs
      rcases List.mem_cons.mp hx with heq | hx'
      · subst heq
        rcases List.mem_cons.mp hc with heq2 | hc'
        · subst heq2
          exact le_refl _
        · rcases hpair.1 c hc' with h | ⟨h, _⟩
          · exact le_of_lt h
          · exact le_of_eq h.symm
      · have hxf : x ∈ rest.filter
            (fun y => decide (y.entry.msgRange ≠ r.entry.msgRange)) :=
          (dedupByRangeF_sublist n _).subset hx'
        have hxne : x.entry.msgRange ≠ r.entry.msgRange := by
          have := (List.mem_filter.mp hxf).2
          simpa using this
        rcases List.mem_cons.mp hc with heq2 | hc'
        · subst heq2
          exact (hxne hrange.symm).elim
        · have hcf : c ∈ rest.filter
              (fun y => decide (y.entry.msgRange ≠ r.entry.msgRange)) := by
            rw [List.mem_filter]
            refine ⟨hc', ?_⟩
            simp only [decide_eq_true_eq]
            rw [hrange]
            exact hxne
          have hsf : (rest.filter
              (fun y => decide (y.entry.msgRange ≠ r.entry.msgRange))).Pairwise
                resultRel :=
            hpair.2.sublist (List.filter_sublist rest)
          exact ih _ hsf x hx' c hcf hrange

/-- Every fused candidate carries exactly the reciprocal-rank-fusion
score of its entry. -/
theorem mem_fuseAll {k : Nat} {vec lex : List CorpusEntry} {r : SearchResult}
    (h : r ∈ fuseAll k vec lex) :
    r.entry ∈ dedupById (vec ++ lex) ∧ r.fused = rrfScore k vec lex r.entry := by
  unfold fuseAll at h
  rcases List.mem_map.mp h with ⟨e, he, heq⟩
  cases heq
  exact ⟨he, rfl⟩

/-- Every search result comes from the fused candidate list. -/
theorem search_mem_fuseAll {k : Nat} {vec lex : List CorpusEntry} {topK : Nat}
    {r : SearchResult} (h : r ∈ search k vec lex topK) : r ∈ fuseAll k vec lex := by
  unfold search at h
  have h1 := List.take_subset _ _ h
  have h2 := (dedupByRange_sublist _).subset h1
  exact (List.perm_insertionSort resultRel _).mem_iff.mp h2

/-- The search output is sorted by the fused-score ordering. -/
theorem search_sorted (k : Nat) (vec lex : List CorpusEntry) (topK : Nat) :
    (search k vec lex topK).Sorted resultRel := by
  unfold search
  refine List.Pairwise.sublist (List.take_sublist _ _) ?_
  refine List.Pairwise.sublist (dedupByRange_sublist _) ?_
  exact List.sorted_insertionSort resultRel _

/-- Search over two empty candidate sets returns the empty sequence. -/
theorem search_nil (k topK : Nat) : search k [] [] topK = [] := by
  simp [search, fuseAll, dedupById, dedupByIdF, dedupByRange, dedupByRangeF,
    List.insertionSort]

/-- The numerator-and-denominator addition used in the fused score is
ordinary addition on `ℚ`. -/
theorem ratAdd_eq_add (a b : ℚ) : ratAdd a b = a + b := by
  unfold ratAdd
  rw [Rat.mkRat_eq_div]
  have ha : (a.den : ℚ) ≠ 0 := Nat.cast_ne_zero.mpr a.den_nz
  have hb : (b.den : ℚ) ≠ 0 := Nat.cast_ne_zero.mpr b.den_nz
  conv_rhs => rw [← Rat.num_div_den a, ← Rat.num_div_den b]
  rw [div_add_div _ _ ha hb]
  push_cast
  ring_nf

/-- The reciprocal-rank term of a present entry is `1 / (k + rank)`. -/
theorem rrfTerm_present (k n : Nat) :
    rrfTerm k (some n) = 1 / ((k : ℚ) + (n : ℚ)) := by
  show mkRat 1 (k + n) = 1 / ((k : ℚ) + (n : ℚ))
  rw [Rat.mkRat_eq_div]
  push_cast
  rfl

/-- Range deduplication of a nonempty list is nonempty (the head always
survives). -/
theorem dedupByRange_ne_nil {l : List SearchResult} (h : l ≠ []) :
    dedupByRange l ≠ [] := by
  cases l with
  | nil => exact absurd rfl h
  | cons r rest => simp [dedupByRange, dedupByRangeF]

/-- With at least one candidate and a positive cap, search returns at
least one result. -/
theorem search_ne_nil {k topK : Nat} {vec lex : List CorpusEntry}
    (h : vec ++ lex ≠ []) (ht : 0 < topK) : search k vec lex topK ≠ [] := by
  unfold search
  intro hnil
  have h1 : fuseAll k vec lex ≠ [] := by
    unfold fuseAll
    simp only [ne_eq, List.map_eq_nil_iff]
    cases hvl : vec ++ lex with
    | nil => exact absurd hvl h
    | cons e rest => simp [dedupById, dedupByIdF]
  have h2 : List.insertionSort resultRel (fuseAll k vec lex) ≠ [] := by
    intro hh
    apply h1
    have hperm := List.perm_insertionSort resultRel (fuseAll k vec lex)
    rw [hh] at hperm
    exact (List.Perm.eq_nil hperm.symm)
  have h3 := dedupByRange_ne_nil h2
  rcases List.take_eq_nil_iff.mp hnil with h4 | h4 <;>
    first
      | exact absurd h4 h3
      | omega

/-- Claim C6: the fused ordering is reciprocal-rank fusion — every
result's fused score is the sum of `1/(k + rank)` terms over the two
candidate sets (zero for an absent set), the score is a function of the
ranks alone, the output is sorted descending by fused score with the
recency tie-break, and the spec's §8 example fuses to exactly the order
B, A, D, C. -/
theorem search_rrf_ordering (k : Nat) (vec lex : List CorpusEntry) (topK : Nat) :
    (∀ r ∈ search k vec lex topK,
       r.fused = rrfTerm k (rankOf vec r.entry.id) + rrfTerm k (rankOf lex r.entry.id)) ∧
    (∀ n : Nat, rrfTerm k (some n) = 1 / ((k : ℚ) + (n : ℚ))) ∧
    (search k vec lex topK).Sorted resultRel ∧
    (∀ (vec' lex' : List CorpusEntry) (e : CorpusEntry),
       rankOf vec e.id = rankOf vec' e.id → rankOf lex e.id = rankOf lex' e.id →
       rrfScore k vec lex e = rrfScore k vec' lex' e) ∧
    (search 60 [entA, entB, entC] [entB, entD] 10).map (fun r => r.entry.id) =
      [2, 1, 4, 3] := by
  refine ⟨?_, rrfTerm_present k, search_sorted k vec lex topK, ?_, by decide⟩
  · intro r hr
    have h := (mem_fuseAll (search_mem_fuseAll hr)).2
    rw [h]
    unfold rrfScore
    rw [ratAdd_eq_add]
  · intro vec' lex' e h1 h2
    unfold rrfScore
    rw [h1, h2]

/-- Witness for C6 on the spec's §8 example: entry B's fused score is
the sum of both reciprocal terms, the term for rank 1 is `1/61`, the
score depends on ranks alone, and the fused order is B, A, D, C. -/
theorem search_rrf_ordering_witness :
    (⟨entB, rrfScore 60 [entA, entB, entC] [entB, entD] entB⟩ : SearchResult).fused =
      rrfTerm 60 (rankOf [entA, entB, entC] entB.id) +
        rrfTerm 60 (rankOf [entB, entD] entB.id) ∧
    rrfTerm 60 (some 1) = 1 / ((60 : ℚ) + (1 : ℚ)) ∧
    rrfScore 60 [entA, entB, entC] [entB, entD] entB =
      rrfScore 60 [entA, entB, entC] [entB, entD] entB ∧
    (search 60 [entA, entB, entC] [entB, entD] 10).map (fun r => r.entry.id) =
      [2, 1, 4, 3] := by
  have h := search_rrf_ordering 60 [entA, entB, entC] [entB, entD] 10
  exact ⟨h.1 _ (by decide), h.2.1 1, h.2.2.2.1 [entA, entB, entC] [entB, entD] entB rfl rfl,
    h.2.2.2.2⟩

/-- Claim C7: no two results share a source message-id range, the
survivor of a duplicated range dominates every same-range candidate's
fused score, and the `topK` cap is applied only after fusion and
deduplication (so a smaller cap always yields a prefix of a larger
cap's result). -/
theorem search_dedup_and_cap (k : Nat) (vec lex : List CorpusEntry) (topK : Nat) :
    (search k vec lex topK).Pairwise
      (fun a b => a.entry.msgRange ≠ b.entry.msgRange) ∧
    (search k vec lex topK).length ≤ topK ∧
    (∀ r ∈ search k vec lex topK, ∀ c ∈ fuseAll k vec lex,
       c.entry.msgRange = r.entry.msgRange → c.fused ≤ r.fused) ∧
    (∀ n₁ n₂ : Nat, n₁ ≤ n₂ →
       search k vec lex n₁ = (search k vec lex n₂).take n₁) := by
  refine ⟨?_, ?_, ?_, ?_⟩
  · exact List.Pairwise.sublist (List.take_sublist _ _) (dedupByRange_pairwise _)
  · exact List.length_take_le _ _
  · intro r hr c hc hrange
    unfold search at hr
    have hr' := List.take_subset _ _ hr
    have hc' : c ∈ List.insertionSort resultRel (fuseAll k vec lex) :=
      (List.perm_insertionSort resultRel _).mem_iff.mpr hc
    exact dedupByRangeF_max _ _ (List.sorted_insertionSort resultRel _) r hr' c hc' hrange
  · intro n₁ n₂ hn
    unfold search
    rw [List.take_take, Nat.min_eq_left hn]

/-- Witness for C7: with two entries sharing a source range, the result
set keeps only the higher-fused one, stays within the cap, and a cap of
1 is the 1-prefix of a cap of 5. -/
theorem search_dedup_and_cap_witness :
    (search 60 [entA, entB2] [entB] 5).Pairwise
      (fun a b => a.entry.msgRange ≠ b.entry.msgRange) ∧
    (search 60 [entA, entB2] [entB] 5).length ≤ 5 ∧
    (⟨entB2, rrfScore 60 [entA, entB2] [entB] entB2⟩ : SearchResult).fused ≤
      (⟨entB, rrfScore 60 [entA, entB2] [entB] entB⟩ : SearchResult).fused ∧
    search 60 [entA, entB2] [entB] 1 = (search 60 [entA, entB2] [entB] 5).take 1 := by
  have h := search_dedup_and_cap 60 [entA, entB2] [entB] 5
  exact ⟨h.1, h.2.1,
    h.2.2.1 ⟨entB, rrfScore 60 [entA, entB2] [entB] entB⟩ (by decide)
      ⟨entB2, rrfScore 60 [entA, entB2] [entB] entB2⟩ (by decide) (by decide),
    h.2.2.2 1 5 (by decide)⟩

/-! ## Claims about the router -/

/-- Claim C8: search degrades gracefully — an empty corpus yields an
empty sequence rather than an error, a single-signal query still returns
the other signal's results, and end-to-end an `ask_question` over an
empty corpus resolves to the distinguishable `noKnowledge` outcome. -/
theorem search_degrades_gracefully :
    (∀ k topK : Nat, search k [] [] topK = []) ∧
    (∀ (k topK : Nat) (vec : List CorpusEntry), vec ≠ [] → 0 < topK →
       search k vec [] topK ≠ [] ∧ ∀ r ∈ search k vec [] topK, r.entry ∈ vec) ∧
    (∀ (k topK : Nat) (lex : List CorpusEntry), lex ≠ [] → 0 < topK →
       search k [] lex topK ≠ [] ∧ ∀ r ∈ search k [] lex topK, r.entry ∈ lex) ∧
    (∀ (cfg : RouterConfig) (st : RouterState) (c : Collaborators)
        (msg : Message) (now : Nat),
       (allow cfg.userLimit cfg.userWindow now st.senderTs).1 = true →
       (allow cfg.groupLimit cfg.groupWindow now st.groupTs).1 = true →
       ∀ cr, c.classify msg.text = some cr → cr.intent = Intent.askQuestion →
       ∀ emb, c.embed (c.rephrase msg.text) = some emb →
       c.vecIndex msg.groupId emb = some [] →
       c.lexIndex msg.groupId (c.rephrase msg.text) = some [] →
       (route cfg st c msg now).outcome = Outcome.noKnowledge ∧
       ∀ ev, Outcome.noKnowledge ≠ Outcome.answered ev) := by
  refine ⟨fun k topK => search_nil k topK, ?_, ?_, ?_⟩
  · intro k topK vec hv ht
    refine ⟨search_ne_nil (by simpa using hv) ht, ?_⟩
    intro r hr
    have h := (mem_fuseAll (search_mem_fuseAll hr)).1
    have h2 := (dedupById_sublist _).subset h
    simpa using h2
  · intro k topK lex hl ht
    refine ⟨search_ne_nil (by simpa using hl) ht, ?_⟩
    intro r hr
    have h := (mem_fuseAll (search_mem_fuseAll hr)).1
    have h2 := (dedupById_sublist _).subset h
    simpa using h2
  · intro cfg st c msg now hA hB cr hcl hi emb hemb hvec hlex
    constructor
    · simp [route, hA, hB, hcl, hi, routeQuestion, hemb, hvec, hlex, search_nil]
    · intro ev
      simp

/-- Witness for C8: vector-only and lexical-only searches return that
signal's entry, the empty corpus returns nothing, and an `ask_question`
over the empty corpus routes to `noKnowledge`. -/
theorem search_degrades_gracefully_witness :
    search 60 [] [] 5 = [] ∧
    search 60 [entA] [] 5 ≠ [] ∧
    (⟨entA, rrfScore 60 [entA] [] entA⟩ : SearchResult).entry ∈ [entA] ∧
    search 60 [] [entD] 5 ≠ [] ∧
    (⟨entD, rrfScore 60 [] [entD] entD⟩ : SearchResult).entry ∈ [entD] ∧
    (route demoCfg stEmpty demoCollab msgAsk 0).outcome = Outcome.noKnowledge := by
  have h := search_degrades_gracefully
  have h2 := h.2.1 60 5 [entA] (by decide) (by decide)
  have h3 := h.2.2.1 60 5 [entD] (by decide) (by decide)
  have h4 := h.2.2.2 demoCfg stEmpty demoCollab msgAsk 0 (by decide) (by decide)
    ⟨Intent.askQuestion, none, none⟩ (by decide) rfl [1] (by decide) (by decide) (by decide)
  exact ⟨h.1 60 5, h2.1, h2.2 _ (by decide), h3.1, h3.2 _ (by decide), h4.1⟩

/-- Claim C1: a `summarize` outcome is produced only when the membership
gate affirmed the sender's membership in the resolved target group
during that same request, and a summarize request by a non-member ends
in the fixed `unauthorized` refusal with zero history-store calls. -/
theorem summarize_requires_membership (cfg : RouterConfig) (st : RouterState)
    (c : Collaborators) (msg : Message) (now : Nat) :
    (∀ s, (route cfg st c msg now).outcome = Outcome.summarized s →
       ∃ cr tg, c.classify msg.text = some cr ∧ cr.intent = Intent.summarize ∧
         resolveTarget st.groups msg.groupId cr.targetGroupHint = some tg ∧
         (isMember st.store c.roster msg.sender tg.id).result = true) ∧
    (∀ cr tg,
       (allow cfg.userLimit cfg.userWindow now st.senderTs).1 = true →
       (allow cfg.groupLimit cfg.groupWindow now st.groupTs).1 = true →
       c.classify msg.text = some cr → cr.intent = Intent.summarize →
       resolveTarget st.groups msg.groupId cr.targetGroupHint = some tg →
       (isMember st.store c.roster msg.sender tg.id).result = false →
       (route cfg st c msg now).outcome = Outcome.unauthorized ∧
       (route cfg st c msg now).historyCalls = 0) := by
  refine ⟨?_, ?_⟩
  · intro s hs
    cases hA : (allow cfg.userLimit cfg.userWindow now st.senderTs).1 with
    | false => simp [route, hA] at hs
    | true =>
      cases hB : (allow cfg.groupLimit cfg.groupWindow now st.groupTs).1 with
      | false => simp [route, hA, hB] at hs
      | true =>
        cases hcl : c.classify msg.text with
        | none => simp [route, hA, hB, hcl] at hs
        | some cr =>
          cases hi : cr.intent with
          | about => simp [route, hA, hB, hcl, hi] at hs
          | other => simp [route, hA, hB, hcl, hi] at hs
          | askQuestion =>
            cases hemb : c.embed (c.rephrase msg.text) with
            | none => simp [route, routeQuestion, hA, hB, hcl, hi, hemb] at hs
            | some emb =>
              cases hvec : c.vecIndex msg.groupId emb with
              | none =>
                cases hlex : c.lexIndex msg.groupId (c.rephrase msg.text) with
                | none =>
                  simp [route, routeQuestion, hA, hB, hcl, hi, hemb, hvec, hlex] at hs
                | some lex =>
                  simp [route, routeQuestion, hA, hB, hcl, hi, hemb, hvec, hlex] at hs
              | some vec =>
                cases hlex : c.lexIndex msg.groupId (c.rephrase msg.text) with
                | none =>
                  simp [route, routeQuestion, hA, hB, hcl, hi, hemb, hvec, hlex] at hs
                | some lex =>
                  by_cases hempty : (search cfg.k vec lex cfg.topK).isEmpty = true
                  · simp [route, routeQuestion, hA, hB, hcl, hi, hemb, hvec, hlex,
                      hempty] at hs
                  · simp [route, routeQuestion, hA, hB, hcl, hi, hemb, hvec, hlex,
                      hempty] at hs
          | summarize =>
            cases htg : resolveTarget st.groups msg.groupId cr.targetGroupHint with
            | none => simp [route, routeSummarize, hA, hB, hcl, hi, htg] at hs
            | some tg =>
              cases hgate : (isMember st.store c.roster msg.sender tg.id).result with
              | false => simp [route, routeSummarize, hA, hB, hcl, hi, htg, hgate] at hs
              | true => exact ⟨cr, tg, rfl, hi, htg, hgate⟩
  · intro cr tg hA hB hcl hi htg hgate
    refine ⟨?_, ?_⟩ <;>
      simp [route, hA, hB, hcl, hi, routeSummarize, htg, hgate]

/-- Witness for C1: user 7 with a membership row gets a summary, so the
gate affirmed; with no row and a live roster that excludes user 7, the
same request is refused with zero history calls. -/
theorem summarize_requires_membership_witness :
    (∃ cr tg, demoCollab.classify msgSum.text = some cr ∧
       cr.intent = Intent.summarize ∧
       resolveTarget stMember.groups msgSum.groupId cr.targetGroupHint = some tg ∧
       (isMember stMember.store demoCollab.roster msgSum.sender tg.id).result = true) ∧
    (route demoCfg stEmpty demoCollab msgSum 0).outcome = Outcome.unauthorized ∧
    (route demoCfg stEmpty demoCollab msgSum 0).historyCalls = 0 := by
  have h1 := (summarize_requires_membership demoCfg stMember demoCollab msgSum 0).1
    "ok" (by decide)
  have h2 := (summarize_requires_membership demoCfg stEmpty demoCollab msgSum 0).2
    ⟨Intent.summarize, none, none⟩ gManaged (by decide) (by decide) (by decide)
    (by decide) (by decide) (by decide)
  exact ⟨h1, h2.1, h2.2⟩

/-- Claim C9: after admission, every collaborator failure surfaces as
its own error outcome — classifier failure as `classificationFailed`,
embedding failure as `embeddingFailed`, an unavailable index as
`searchIndexUnavailable`, a roster failure on summarize as the denial —
and none of these outcomes is a normal answered or summarized
response. -/
theorem collaborator_failures_surface (cfg : RouterConfig) (st : RouterState)
    (c : Collaborators) (msg : Message) (now : Nat)
    (hA : (allow cfg.userLimit cfg.userWindow now st.senderTs).1 = true)
    (hB : (allow cfg.groupLimit cfg.groupWindow now st.groupTs).1 = true) :
    (c.classify msg.text = none →
       (route cfg st c msg now).outcome = Outcome.classificationFailed) ∧
    (∀ cr, c.classify msg.text = some cr → cr.intent = Intent.askQuestion →
       c.embed (c.rephrase msg.text) = none →
       (route cfg st c msg now).outcome = Outcome.embeddingFailed) ∧
    (∀ cr emb, c.classify msg.text = some cr → cr.intent = Intent.askQuestion →
       c.embed (c.rephrase msg.text) = some emb →
       (c.vecIndex msg.groupId emb = none ∨
         c.lexIndex msg.groupId (c.rephrase msg.text) = none) →
       (route cfg st c msg now).outcome = Outcome.searchIndexUnavailable) ∧
    (∀ cr tg, c.classify msg.text = some cr → cr.intent = Intent.summarize →
       resolveTarget st.groups msg.groupId cr.targetGroupHint = some tg →
       (tg.id, msg.sender) ∉ st.store → c.roster tg.id = none →
       (route cfg st c msg now).outcome = Outcome.unauthorized ∧
       (route cfg st c msg now).historyCalls = 0) ∧
    (∀ ev s, Outcome.classificationFailed ≠ Outcome.answered ev ∧
       Outcome.classificationFailed ≠ Outcome.summarized s ∧
       Outcome.embeddingFailed ≠ Outcome.answered ev ∧
       Outcome.embeddingFailed ≠ Outcome.summarized s ∧
       Outcome.searchIndexUnavailable ≠ Outcome.answered ev ∧
       Outcome.searchIndexUnavailable ≠ Outcome.summarized s ∧
       Outcome.unauthorized ≠ Outcome.answered ev ∧
       Outcome.unauthorized ≠ Outcome.summarized s) := by
  refine ⟨?_, ?_, ?_, ?_, ?_⟩
  · intro hcl
    simp [route, hA, hB, hcl]
  · intro cr hcl hi hemb
    simp [route, hA, hB, hcl, hi, routeQuestion, hemb]
  · intro cr emb hcl hi hemb hidx
    rcases hidx with hv | hl
    · cases hlex : c.lexIndex msg.groupId (c.rephrase msg.text) with
      | none => simp [route, hA, hB, hcl, hi, routeQuestion, hemb, hv, hlex]
      | some lex => simp [route, hA, hB, hcl, hi, routeQuestion, hemb, hv, hlex]
    · cases hvec : c.vecIndex msg.groupId emb with
      | none => simp [route, hA, hB, hcl, hi, routeQuestion, hemb, hvec, hl]
      | some vec => simp [route, hA, hB, hcl, hi, routeQuestion, hemb, hvec, hl]
  · intro cr tg hcl hi htg hmem hrost
    have hgate : isMember st.store c.roster msg.sender tg.id = ⟨false, st.store, 1⟩ := by
      simp [isMember, hmem, hrost]
    refine ⟨?_, ?_⟩ <;>
      simp [route, hA, hB, hcl, hi, routeSummarize, htg, hgate]
  · intro ev s
    refine ⟨?_, ?_, ?_, ?_, ?_, ?_, ?_, ?_⟩ <;> simp

/-- Witness for C9: each failing collaborator variant routes to its own
error outcome. -/
theorem collaborator_failures_surface_witness :
    (route demoCfg stEmpty demoCollabNoClassify msgAsk 0).outcome =
      Outcome.classificationFailed ∧
    (route demoCfg stEmpty demoCollabNoEmbed msgAsk 0).outcome =
      Outcome.embeddingFailed ∧
    (route demoCfg stEmpty demoCollabNoVec msgAsk 0).outcome =
      Outcome.searchIndexUnavailable ∧
    (route demoCfg stEmpty demoCollabNoRoster msgSum 0).outcome =
      Outcome.unauthorized := by
  have h1 := (collaborator_failures_surface demoCfg stEmpty demoCollabNoClassify
    msgAsk 0 (by decide) (by decide)).1 rfl
  have h2 := (collaborator_failures_surface demoCfg stEmpty demoCollabNoEmbed
    msgAsk 0 (by decide) (by decide)).2.1 ⟨Intent.askQuestion, none, none⟩
    (by decide) (by decide) rfl
  have h3 := (collaborator_failures_surface demoCfg stEmpty demoCollabNoVec
    msgAsk 0 (by decide) (by decide)).2.2.1 ⟨Intent.askQuestion, none, none⟩ [1]
    (by decide) (by decide) (by decide) (Or.inl rfl)
  have h4 := (collaborator_failures_surface demoCfg stEmpty demoCollabNoRoster
    msgSum 0 (by decide) (by decide)).2.2.2.1 ⟨Intent.summarize, none, none⟩
    gManaged (by decide) (by decide) (by decide) (by decide) rfl
  exact ⟨h1, h2, h3, h4.1⟩

/-- Claim C10: the knowledge-question path ignores the group list
entirely — an `ask_question` message routes identically whatever the
groups' `managed` flags are — while the `managed` flag constrains only
summarize-target eligibility (a resolved target is always managed). -/
theorem askQuestion_ignores_managed (cfg : RouterConfig) (c : Collaborators)
    (msg : Message) (now : Nat) :
    (∀ st st' : RouterState, ∀ cr, c.classify msg.text = some cr →
       cr.intent = Intent.askQuestion →
       st.store = st'.store → st.senderTs = st'.senderTs → st.groupTs = st'.groupTs →
       route cfg st c msg now = route cfg st' c msg now) ∧
    (∀ (groups : List Group) (cur : Nat) (hint : Option String) (tg : Group),
       resolveTarget groups cur hint = some tg → tg.managed = true) := by
  refine ⟨?_, ?_⟩
  · intro st st' cr hcl hi h1 h2 h3
    simp only [route, routeQuestion, h1, h2, h3, hcl, hi]
  · intro groups cur hint tg htg
    cases hint with
    | some nm =>
      have h := List.find?_some htg
      simp only [Bool.and_eq_true] at h
      exact h.1
    | none =>
      have h := List.find?_some htg
      simp only [Bool.and_eq_true] at h
      exact h.1

/-- Witness for C10: the same `ask_question` message routes identically
in a state whose only group is unmanaged and one where it is managed,
and the resolved summarize target `gManaged` is managed. -/
theorem askQuestion_ignores_managed_witness :
    route demoCfg stUnmanaged demoCollab msgAsk 0 =
      route demoCfg stEmpty demoCollab msgAsk 0 ∧
    gManaged.managed = true := by
  have h := askQuestion_ignores_managed demoCfg demoCollab msgAsk 0
  exact ⟨h.1 stUnmanaged stEmpty ⟨Intent.askQuestion, none, none⟩ (by decide) rfl
      rfl rfl rfl,
    h.2 [gManaged] 9 none gManaged (by decide)⟩

end WaLlm
